import Mathlib

/-!
Shallow embedding of the statistics core of `src/main.py` (class `Estatistica`).

Samples are modelled as `List ℚ` (exact rationals idealising Python floats).
Library primitives the source calls are embedded by their documented semantics:

* `np.mean`, `np.median` - arithmetic mean; sort and take the middle element
  (average of the two central elements for even length).
* `np.std` - `sqrt(sum((x - mean)^2) / (N - ddof))`, `ddof = 0` by default
  (population standard deviation).
* `scipy.stats.mode(array, keepdims=False)` - returns the pair
  (smallest most frequent value, its count); on ties the smallest modal
  value is returned (scipy documentation).
* `scipy.stats.kurtosis(array, fisher=False)` - `m4 / m2^2` with `m_k` the
  k-th central moment (mean of `(x - mean)^k`); `fisher=True` would
  subtract 3.
* numpy float division never raises: `0/0` yields NaN, `x/0` yields
  signed infinity (a RuntimeWarning is printed, no exception).  The type
  `PRes` below carries those non-finite outcomes explicitly.
* Python `round(x, k)` - round half to even at `k` decimal digits,
  idealised as exact half-even rounding of the rational/real value.

A value like the Python string `f"{v} - {label}"` produced by `resumir`
when `analise` is true is modelled as the tagged variant
`classified v label`; a plain number is `num v`.
-/

/-- Failures raised by the Python code: `NameError` from `resumir`/`plotar`
on an empty sample, `ZeroDivisionError` from plain-float division in
`calculo_amostral`. -/
inductive Err
  | nameError
  | zeroDivision
deriving DecidableEq

/-- Result of a numpy floating-point computation: a finite value, a signed
infinity, or NaN. -/
inductive PRes
  | val (v : ℚ)
  | inf
  | ninf
  | nan
deriving DecidableEq

/-- numpy division: `0/0` is NaN, `±x/0` is signed infinity, otherwise exact. -/
def npdivQ (a b : ℚ) : PRes :=
  if b = 0 then (if a = 0 then .nan else if 0 < a then .inf else .ninf)
  else .val (a / b)

/-- Python `x == c` on a numpy result: NaN and infinities never equal a finite
constant. -/
def PRes.eqQ : PRes → ℚ → Bool
  | .val v, c => decide (v = c)
  | _, _ => false

/-- Python `x > c`: true for `+inf`, false for NaN and `-inf`. -/
def PRes.gtQ : PRes → ℚ → Bool
  | .val v, c => decide (c < v)
  | .inf, _ => true
  | _, _ => false

/-- Python `x < c`: true for `-inf`, false for NaN and `+inf`. -/
def PRes.ltQ : PRes → ℚ → Bool
  | .val v, c => decide (v < c)
  | .ninf, _ => true
  | _, _ => false

/-- Python `c < x`: false for NaN, true for `+inf`. -/
def qltPRes (c : ℚ) : PRes → Bool
  | .val v => decide (c < v)
  | .inf => true
  | _ => false

/-- Python `abs` on a numpy result: `abs(nan) = nan`, `abs(±inf) = inf`. -/
def PRes.absP : PRes → PRes
  | .val v => .val |v|
  | .nan => .nan
  | _ => .inf

/-- Subtraction of a finite constant from a numpy result. -/
def PRes.subQ : PRes → ℚ → PRes
  | .val v, c => .val (v - c)
  | p, _ => p

/-- Python `round` to an integer: round half to even. -/
def roundHalfEvenQ (x : ℚ) : ℤ :=
  if x - ⌊x⌋ < 1/2 then ⌊x⌋
  else if 1/2 < x - ⌊x⌋ then ⌊x⌋ + 1
  else if ⌊x⌋ % 2 = 0 then ⌊x⌋ else ⌊x⌋ + 1

/-- Python `round(x, k)` on an exact rational value. -/
def roundToQ (k : ℕ) (q : ℚ) : ℚ :=
  (roundHalfEvenQ (q * 10 ^ k) : ℚ) / 10 ^ k

/-- Python `round(x, k)` on a numpy result: `round(nan, k) = nan`,
`round(±inf, k) = ±inf`. -/
def PRes.roundTo (k : ℕ) : PRes → PRes
  | .val v => .val (roundToQ k v)
  | p => p

open Classical in
/-- Round half to even on a real value (the rounding Python applies to the
real-valued standard deviation). -/
noncomputable def rdHE (x : ℝ) : ℤ :=
  if x - ⌊x⌋ < 1/2 then ⌊x⌋
  else if 1/2 < x - ⌊x⌋ then ⌊x⌋ + 1
  else if ⌊x⌋ % 2 = 0 then ⌊x⌋ else ⌊x⌋ + 1

/-- Python `round(x, k)` on a real value. -/
noncomputable def roundToR (k : ℕ) (x : ℝ) : ℚ :=
  (rdHE (x * 10 ^ k) : ℚ) / 10 ^ k

/-- `Estatistica.media`: `np.mean(array)`, the arithmetic mean. -/
def media (xs : List ℚ) : ℚ := xs.sum / xs.length

/-- The sorted copy of the sample used by `np.median`. -/
def sortData (xs : List ℚ) : List ℚ := xs.mergeSort (fun a b => decide (a ≤ b))

/-- `Estatistica.mediana`: `np.median(array)` - middle element of the sorted
data, or the average of the two central elements for even length. -/
def mediana (xs : List ℚ) : ℚ :=
  if xs.length % 2 = 1 then (sortData xs).getD (xs.length / 2) 0
  else ((sortData xs).getD (xs.length / 2 - 1) 0 + (sortData xs).getD (xs.length / 2) 0) / 2

/-- The largest number of occurrences of any value of the sample. -/
def maxCount (xs : List ℚ) : ℕ := (xs.map fun v => xs.count v).foldr max 0

/-- The values of the sample attaining the maximum frequency. -/
def modeCandidates (xs : List ℚ) : List ℚ :=
  xs.filter fun v => decide (xs.count v = maxCount xs)

/-- `scipy.stats.mode(array, keepdims=False)`: the smallest most frequent
value together with its count. -/
def st_mode (xs : List ℚ) : Option (ℚ × ℕ) :=
  match (modeCandidates xs).min? with
  | some v => some (v, xs.count v)
  | none => none

/-- `Estatistica.moda`: `moda[0] if moda[1] > 1 else None`. -/
def moda (xs : List ℚ) : Option ℚ :=
  match st_mode xs with
  | some (v, c) => if 1 < c then some v else none
  | none => none

/-- The k-th central moment, mean of `(x - mean)^k`. -/
def centralMoment (xs : List ℚ) (k : ℕ) : ℚ :=
  (xs.map fun x => (x - media xs) ^ k).sum / xs.length

/-- `np.std(array, ddof)`: square root of `sum((x - mean)^2) / (N - ddof)`;
the source calls it with the default `ddof = 0`. -/
noncomputable def np_std (xs : List ℚ) (ddof : ℕ) : ℝ :=
  Real.sqrt ((((xs.map fun x => (x - media xs) ^ 2).sum / ((xs.length : ℚ) - (ddof : ℚ))) : ℚ) : ℝ)

/-- `Estatistica.desvio_padrao`: `round(np.std(array), 4)`. -/
noncomputable def desvio_padrao (xs : List ℚ) : ℚ := roundToR 4 (np_std xs 0)

/-- `Estatistica.coef_pearson`:
`(3 * (media(array) - mediana(array))) / desvio_padrao(array)` under numpy
division semantics. -/
noncomputable def coef_pearson (xs : List ℚ) : PRes :=
  npdivQ (3 * (media xs - mediana xs)) (desvio_padrao xs)

/-- `scipy.stats.kurtosis(array, fisher)`: `m4 / m2^2`, minus 3 when
`fisher` is true. -/
def st_kurtosis (fisher : Bool) (xs : List ℚ) : PRes :=
  if fisher then (npdivQ (centralMoment xs 4) ((centralMoment xs 2) ^ 2)).subQ 3
  else npdivQ (centralMoment xs 4) ((centralMoment xs 2) ^ 2)

/-- `Estatistica.curtose`: `round(st.kurtosis(array, fisher=False), 3)`. -/
def curtose (xs : List ℚ) : PRes := (st_kurtosis false xs).roundTo 3

/-- Intensity tag appended by `resumir` to an asymmetric Pearson label:
`"MODERADA"` or `"FORTE"`. -/
inductive Intensidade
  | moderada
  | forte
deriving DecidableEq

/-- Skewness label attached by `resumir`: `"Simétrica"`,
`"Assimétrica à direita ou positiva - <intensity>"`, or
`"Assimétrica à esquerda ou negativa - <intensity>"`. -/
inductive Assimetria
  | simetrica
  | direita (i : Intensidade)
  | esquerda (i : Intensidade)
deriving DecidableEq

/-- Kurtosis label attached by `resumir`: `"Mesocúrtica"`, `"Platicúrtica"`
or `"Leptocúrtica"`. -/
inductive CurtoseClasse
  | mesocurtica
  | platicurtica
  | leptocurtica
deriving DecidableEq

/-- The `pearson` entry of the summary: a plain number, or the string
`f"{value} - {label}"` modelled as value plus label. -/
inductive CampoP
  | num (v : PRes)
  | classified (v : PRes) (a : Assimetria)
deriving DecidableEq

/-- The `curtose` entry of the summary: a plain number, or the string
`f"{value} - {label}"` modelled as value plus label. -/
inductive CampoC
  | num (v : PRes)
  | classified (v : PRes) (c : CurtoseClasse)
deriving DecidableEq

/-- The skewness branch of `resumir`: `pearson_value == 0` is symmetric;
positive values are right-skew, negative left-skew, with intensity
`"MODERADA"` when `0.15 < abs(pearson_value) < 1` and `"FORTE"` otherwise. -/
def classificaPearson (p : PRes) : Assimetria :=
  if p.eqQ 0 then .simetrica
  else if p.gtQ 0 then
    .direita (if qltPRes (15/100) p.absP && p.absP.ltQ 1 then .moderada else .forte)
  else
    .esquerda (if qltPRes (15/100) p.absP && p.absP.ltQ 1 then .moderada else .forte)

/-- The kurtosis branch of `resumir`: `== 0.263` mesokurtic, `> 0.263`
platykurtic, otherwise leptokurtic. -/
def classificaCurtose (c : PRes) : CurtoseClasse :=
  if c.eqQ (263/1000) then .mesocurtica
  else if c.gtQ (263/1000) then .platicurtica
  else .leptocurtica

/-- The dictionary returned by `Estatistica.resumir`. -/
structure Resumo where
  media : ℚ
  mediana : ℚ
  moda : Option ℚ
  desvio_padrao : ℚ
  pearson : CampoP
  curtose : CampoC

/-- `Estatistica.resumir(analise)`: raises `NameError` when `dados` is empty
(`if self.dados:`), otherwise builds the summary dictionary; when `analise`
is true the pearson and kurtosis values are replaced by labelled strings. -/
noncomputable def resumir (dados : List ℚ) (analise : Bool) : Except Err Resumo :=
  match dados with
  | [] => .error .nameError
  | _ :: _ =>
    let pearson_value := (coef_pearson dados).roundTo 3
    let curtose_value := curtose dados
    .ok { media := media dados
          mediana := mediana dados
          moda := moda dados
          desvio_padrao := desvio_padrao dados
          pearson := if analise then .classified pearson_value (classificaPearson pearson_value)
                     else .num pearson_value
          curtose := if analise then .classified curtose_value (classificaCurtose curtose_value)
                     else .num curtose_value }

/-- `Estatistica.calculo_amostral(confianca, p, erro, N)`: the three Python
float divisions raise `ZeroDivisionError` (in evaluation order) when their
divisor is zero; otherwise the result is `round` of the finite-population
corrected sample size. -/
def calculo_amostral (confianca p erro : ℚ) (N : ℤ) : Except Err ℤ :=
  if erro ^ 2 = 0 then .error .zeroDivision
  else if erro ^ 2 * (N : ℚ) = 0 then .error .zeroDivision
  else if 1 + ((confianca ^ 2 * p * (1 - p)) / (erro ^ 2 * (N : ℚ))) = 0 then .error .zeroDivision
  else .ok (roundHalfEvenQ (((confianca ^ 2 * p * (1 - p)) / erro ^ 2) /
      (1 + ((confianca ^ 2 * p * (1 - p)) / (erro ^ 2 * (N : ℚ))))))

/-- Modelled from the spec: the tie-break claimed for `mode` - "first value
reaching the maximum frequency when the samples are scanned in their given
order" - i.e. the first element in sample order whose frequency is the
maximum frequency.  The source itself delegates to `scipy.stats.mode`,
whose documented tie-break is the smallest modal value; this definition is
only used to exhibit the divergence. -/
def specFirstMode (xs : List ℚ) : Option ℚ :=
  xs.find? fun v => decide (xs.count v = maxCount xs)

/-- Claim C2: on the empty sample, for either value of the `analise` flag,
`resumir` raises the empty-sample `NameError` and produces no summary record
at all. -/
theorem claim_C2 : ∀ analise : Bool, resumir [] analise = .error .nameError :=
  fun _ => rfl

/-- Claim C9: `calculo_amostral` returns
`round(n0 / (1 + n0 / N))` with `n0 = confianca^2 * p * (1 - p) / erro^2`,
rounded half to even; a zero `erro` is a division-by-zero failure for every
choice of the other inputs, and a zero population size `N` likewise. -/
theorem claim_C9 (c p e : ℚ) (N : ℤ) (he : e ≠ 0) (hN : N ≠ 0)
    (hden : 1 + (c ^ 2 * p * (1 - p) / e ^ 2) / (N : ℚ) ≠ 0) :
    calculo_amostral c p e N =
      .ok (roundHalfEvenQ ((c ^ 2 * p * (1 - p) / e ^ 2) /
        (1 + (c ^ 2 * p * (1 - p) / e ^ 2) / (N : ℚ)))) ∧
    calculo_amostral c p 0 N = .error .zeroDivision ∧
    calculo_amostral c p e 0 = .error .zeroDivision := by
  have he2 : e ^ 2 ≠ 0 := pow_ne_zero 2 he
  have hNq : (N : ℚ) ≠ 0 := Int.cast_ne_zero.mpr hN
  have key : (c ^ 2 * p * (1 - p)) / (e ^ 2 * (N : ℚ)) =
      (c ^ 2 * p * (1 - p) / e ^ 2) / (N : ℚ) := by
    rw [div_div]
  refine ⟨?_, ?_, ?_⟩
  · unfold calculo_amostral
    rw [if_neg he2, if_neg (mul_ne_zero he2 hNq)]
    rw [key, if_neg hden]
  · unfold calculo_amostral
    norm_num
  · unfold calculo_amostral
    rw [if_neg he2]
    norm_num

/-- Witness for claim C9 at `confianca = 2`, `p = 1/2`, `erro = 1/10`,
`N = 100`: there `n0 = 100` and the corrected size is `50`. -/
theorem claim_C9_witness :
    ((1 : ℚ) / 10 ≠ 0 ∧ (100 : ℤ) ≠ 0 ∧
      1 + ((2 : ℚ) ^ 2 * (1/2) * (1 - 1/2) / (1/10) ^ 2) / ((100 : ℤ) : ℚ) ≠ 0) ∧
    (calculo_amostral 2 (1/2) (1/10) 100 =
      .ok (roundHalfEvenQ (((2 : ℚ) ^ 2 * (1/2) * (1 - 1/2) / (1/10) ^ 2) /
        (1 + ((2 : ℚ) ^ 2 * (1/2) * (1 - 1/2) / (1/10) ^ 2) / ((100 : ℤ) : ℚ)))) ∧
      calculo_amostral 2 (1/2) 0 100 = .error .zeroDivision ∧
      calculo_amostral 2 (1/2) (1/10) 0 = .error .zeroDivision) := by
  refine ⟨⟨by norm_num, by norm_num, by norm_num⟩, ?_⟩
  exact claim_C9 2 (1/2) (1/10) 100 (by norm_num) (by norm_num) (by norm_num)

/-- Half-even rounding never goes below an integer lower bound of its
argument. -/
theorem rdHE_ge (x : ℝ) (m : ℤ) (h : (m : ℝ) ≤ x) : m ≤ rdHE x := by
  have hf : m ≤ ⌊x⌋ := Int.le_floor.mpr h
  unfold rdHE
  split_ifs <;> omega

/-- Half-even rounding of an integer is that integer. -/
theorem rdHE_intCast (m : ℤ) : rdHE (m : ℝ) = m := by
  unfold rdHE
  rw [Int.floor_intCast]
  rw [if_pos]
  norm_num

/-- Evaluation of the real-valued `round(x, k)` when `x * 10^k` is an exact
integer. -/
theorem roundToR_eval (k : ℕ) (x : ℝ) (m : ℤ) (h : x * 10 ^ k = (m : ℝ)) :
    roundToR k x = (m : ℚ) / 10 ^ k := by
  unfold roundToR
  rw [h, rdHE_intCast]

/-- `np.std` with the default `ddof = 0` is the square root of the second
central moment. -/
theorem np_std_ddof_zero (xs : List ℚ) :
    np_std xs 0 = Real.sqrt ((centralMoment xs 2 : ℚ) : ℝ) := by
  simp [np_std, centralMoment]

/-- The mean of a constant sample is the constant. -/
theorem media_replicate (n : ℕ) (c : ℚ) (h : 0 < n) :
    media (List.replicate n c) = c := by
  have hn : (n : ℚ) ≠ 0 := Nat.cast_ne_zero.mpr h.ne'
  simp only [media, List.sum_replicate, List.length_replicate, nsmul_eq_mul]
  field_simp

/-- The squared deviations of a constant sample sum to zero. -/
theorem sqdev_replicate (n : ℕ) (c : ℚ) :
    ((List.replicate n c).map fun x => (x - media (List.replicate n c)) ^ 2).sum = 0 := by
  cases n with
  | zero => simp
  | succ n' =>
    rw [media_replicate _ _ (Nat.succ_pos n')]
    simp [List.map_replicate]

/-- `np.std` of a constant sample is zero. -/
theorem np_std_replicate (n : ℕ) (c : ℚ) : np_std (List.replicate n c) 0 = 0 := by
  unfold np_std
  rw [sqdev_replicate]
  simp

/-- `desvio_padrao` of a constant sample is zero. -/
theorem desvio_replicate (n : ℕ) (c : ℚ) : desvio_padrao (List.replicate n c) = 0 := by
  unfold desvio_padrao
  rw [np_std_replicate]
  rw [roundToR_eval 4 0 0 (by norm_num)]
  norm_num

/-- `getD` on a constant list within bounds yields the constant. -/
theorem getD_replicate (n i : ℕ) (c : ℚ) (h : i < n) :
    (List.replicate n c).getD i 0 = c := by
  induction n generalizing i with
  | zero => omega
  | succ n' ih =>
    cases i with
    | zero => rfl
    | succ i' =>
      rw [List.replicate_succ]
      exact ih i' (by omega)

/-- Sorting a constant sample leaves it unchanged. -/
theorem sortData_replicate (n : ℕ) (c : ℚ) :
    sortData (List.replicate n c) = List.replicate n c := by
  apply List.mergeSort_of_sorted
  apply List.Pairwise.imp (R := fun a b : ℚ => a ≤ b)
  · intro a b hab
    simpa using hab
  · exact List.pairwise_replicate.mpr (Or.inr le_rfl)

/-- The median of a constant sample is the constant. -/
theorem mediana_replicate (n : ℕ) (c : ℚ) (h : 0 < n) :
    mediana (List.replicate n c) = c := by
  unfold mediana
  rw [sortData_replicate]
  simp only [List.length_replicate]
  split_ifs with hp
  · exact getD_replicate n (n / 2) c (Nat.div_lt_self h (by norm_num))
  · rw [getD_replicate n (n / 2 - 1) c (by omega), getD_replicate n (n / 2) c (by omega)]
    ring

/-- `coef_pearson` of a constant sample is the numpy quotient `0/0`, NaN. -/
theorem coef_pearson_replicate (n : ℕ) (c : ℚ) (h : 0 < n) :
    coef_pearson (List.replicate n c) = PRes.nan := by
  unfold coef_pearson
  rw [media_replicate _ _ h, mediana_replicate _ _ h, desvio_replicate]
  simp [npdivQ]

/-- Claim C1 (amended): on a non-empty constant sample the standard
deviation is zero, and `coef_pearson` is the silent numpy quotient `0/0`,
NaN - no error is raised; `resumir` returns normally and labels the NaN
value as strong left asymmetry (every comparison against NaN is false, so
the final branch with intensity `"FORTE"` is taken). -/
theorem claim_C1_amended (c : ℚ) (n : ℕ) (h : 0 < n) :
    desvio_padrao (List.replicate n c) = 0 ∧
    coef_pearson (List.replicate n c) = PRes.nan ∧
    ∃ r, resumir (List.replicate n c) true = .ok r ∧
      r.pearson = CampoP.classified PRes.nan (Assimetria.esquerda Intensidade.forte) := by
  refine ⟨desvio_replicate n c, coef_pearson_replicate n c h, ?_⟩
  obtain ⟨n', rfl⟩ : ∃ n', n = n' + 1 := ⟨n - 1, by omega⟩
  have hcp : coef_pearson (c :: List.replicate n' c) = PRes.nan := by
    have h2 := coef_pearson_replicate (n' + 1) c (Nat.succ_pos n')
    rwa [List.replicate_succ] at h2
  rw [List.replicate_succ]
  refine ⟨_, rfl, ?_⟩
  simp [resumir, hcp, classificaPearson, PRes.roundTo, PRes.eqQ, PRes.gtQ, PRes.absP,
    qltPRes, PRes.ltQ]

/-- Witness for claim C1 at the constant sample `[1, 1]`. -/
theorem claim_C1_amended_witness :
    0 < 2 ∧
    (desvio_padrao (List.replicate 2 (1 : ℚ)) = 0 ∧
      coef_pearson (List.replicate 2 (1 : ℚ)) = PRes.nan ∧
      ∃ r, resumir (List.replicate 2 (1 : ℚ)) true = .ok r ∧
        r.pearson = CampoP.classified PRes.nan (Assimetria.esquerda Intensidade.forte)) :=
  ⟨by norm_num, claim_C1_amended 1 2 (by norm_num)⟩

/-- Counterexample to claim C1 as stated: on the constant sample `[1, 1]`
the standard deviation is zero, yet `coef_pearson` silently yields NaN
rather than failing, and `resumir` returns a summary instead of
propagating an error. -/
theorem claim_C1_cex :
    desvio_padrao ([1, 1] : List ℚ) = 0 ∧
    coef_pearson ([1, 1] : List ℚ) = PRes.nan ∧
    (resumir ([1, 1] : List ℚ) true).isOk = true := by
  refine ⟨?_, ?_, rfl⟩
  · exact desvio_replicate 2 1
  · exact coef_pearson_replicate 2 1 (by norm_num)

/-- Claim C10: on any non-empty sample `resumir` succeeds for both values
of the `analise` flag, and the flag leaves the `media`, `mediana`, `moda`
and `desvio_padrao` entries of the summary unchanged. -/
theorem claim_C10 (xs : List ℚ) (h : xs ≠ []) :
    ∃ r t, resumir xs true = .ok r ∧ resumir xs false = .ok t ∧
      r.media = t.media ∧ r.mediana = t.mediana ∧ r.moda = t.moda ∧
      r.desvio_padrao = t.desvio_padrao := by
  obtain ⟨a, l, rfl⟩ := List.exists_cons_of_ne_nil h
  exact ⟨_, _, rfl, rfl, rfl, rfl, rfl, rfl⟩

/-- Witness for claim C10 at the sample `[1, 2]`. -/
theorem claim_C10_witness :
    ([1, 2] : List ℚ) ≠ [] ∧
    ∃ r t, resumir ([1, 2] : List ℚ) true = .ok r ∧ resumir ([1, 2] : List ℚ) false = .ok t ∧
      r.media = t.media ∧ r.mediana = t.mediana ∧ r.moda = t.moda ∧
      r.desvio_padrao = t.desvio_padrao :=
  ⟨by simp, claim_C10 [1, 2] (by simp)⟩

/-- Every member of a list of naturals is at most the `foldr max 0`. -/
theorem foldr_max_le_of_mem {l : List ℕ} {n : ℕ} (h : n ∈ l) : n ≤ l.foldr max 0 := by
  induction l with
  | nil => cases h
  | cons a t ih =>
    simp only [List.foldr_cons]
    rcases List.mem_cons.mp h with rfl | h'
    · exact le_max_left _ _
    · exact le_trans (ih h') (le_max_right _ _)

/-- The `foldr max 0` of a list of naturals is a member, unless it is zero. -/
theorem foldr_max_mem (l : List ℕ) : l.foldr max 0 ∈ l ∨ l.foldr max 0 = 0 := by
  induction l with
  | nil => exact Or.inr rfl
  | cons a t ih =>
    simp only [List.foldr_cons]
    rcases max_choice a (t.foldr max 0) with h | h
    · rw [h]; exact Or.inl (List.mem_cons_self a t)
    · rw [h]
      rcases ih with hm | hz
      · exact Or.inl (List.mem_cons_of_mem a hm)
      · exact Or.inr hz

/-- No value occurs more often than the maximum frequency. -/
theorem count_le_maxCount (xs : List ℚ) {v : ℚ} (hv : v ∈ xs) :
    xs.count v ≤ maxCount xs :=
  foldr_max_le_of_mem (List.mem_map_of_mem _ hv)

/-- On a non-empty sample some value attains the maximum frequency. -/
theorem exists_maxCount (xs : List ℚ) (h : xs ≠ []) :
    ∃ v ∈ xs, xs.count v = maxCount xs := by
  rcases foldr_max_mem (xs.map fun v => xs.count v) with hm | hz
  · rw [List.mem_map] at hm
    obtain ⟨v, hv, hc⟩ := hm
    exact ⟨v, hv, hc⟩
  · exfalso
    obtain ⟨a, t, rfl⟩ := List.exists_cons_of_ne_nil h
    have h1 : (a :: t).count a ≤ maxCount (a :: t) := count_le_maxCount _ (List.mem_cons_self a t)
    have h2 : (a :: t).count a = t.count a + 1 := List.count_cons_self a t
    have h3 : maxCount (a :: t) = 0 := hz
    omega

/-- `List.min?` returns a member that is a lower bound. -/
theorem min?_spec {xs : List ℚ} {m : ℚ} (hm : xs.min? = some m) :
    m ∈ xs ∧ ∀ b ∈ xs, m ≤ b := by
  have h := @List.min?_eq_some_iff ℚ m _ _ ⟨fun h1 h2 => le_antisymm h1 h2⟩
    (fun a : ℚ => le_refl a) min_choice (fun a b c : ℚ => le_min_iff) xs
  exact h.mp hm

/-- Characterisation of the embedded `scipy.stats.mode` on a non-empty
sample: it returns a value of maximum frequency, the smallest such value,
together with its count. -/
theorem st_mode_spec (xs : List ℚ) (h : xs ≠ []) :
    ∃ m, st_mode xs = some (m, xs.count m) ∧ xs.count m = maxCount xs ∧
      ∀ w ∈ xs, xs.count w = maxCount xs → m ≤ w := by
  obtain ⟨w, hw, hwc⟩ := exists_maxCount xs h
  have hcand : w ∈ modeCandidates xs := List.mem_filter.mpr ⟨hw, by simpa using hwc⟩
  obtain ⟨m, hm⟩ : ∃ m, (modeCandidates xs).min? = some m := by
    cases hc : modeCandidates xs with
    | nil => rw [hc] at hcand; cases hcand
    | cons b l => exact ⟨l.foldl min b, rfl⟩
  have hspec := min?_spec hm
  have hmc : xs.count m = maxCount xs := by
    have h2 := List.mem_filter.mp hspec.1
    simpa using h2.2
  refine ⟨m, ?_, hmc, ?_⟩
  · unfold st_mode
    rw [hm]
  · intro u hu huc
    exact hspec.2 u (List.mem_filter.mpr ⟨hu, by simpa using huc⟩)

/-- Claim C5: on a non-empty sample in which no value repeats (maximum
frequency one) `moda` is `none`, not any numeric default; whenever some
value repeats, `moda` returns a value of maximum frequency. -/
theorem claim_C5 (xs : List ℚ) (h : xs ≠ []) :
    (maxCount xs = 1 → moda xs = none) ∧
    (1 < maxCount xs → ∃ v, moda xs = some v ∧ xs.count v = maxCount xs) := by
  obtain ⟨m, hsm, hmc, _⟩ := st_mode_spec xs h
  constructor
  · intro h1
    unfold moda
    rw [hsm]
    simp [hmc, h1]
  · intro h1
    refine ⟨m, ?_, hmc⟩
    unfold moda
    rw [hsm]
    simp only [hmc]
    rw [if_pos h1]

/-- Witness for claim C5 at the all-distinct sample `[1, 2, 3]`. -/
theorem claim_C5_witness :
    ([1, 2, 3] : List ℚ) ≠ [] ∧
    ((maxCount [1, 2, 3] = 1 → moda [1, 2, 3] = none) ∧
      (1 < maxCount [1, 2, 3] →
        ∃ v, moda [1, 2, 3] = some v ∧ ([1, 2, 3] : List ℚ).count v = maxCount [1, 2, 3])) :=
  ⟨by simp, claim_C5 [1, 2, 3] (by simp)⟩

/-- Claim C6 (amended): when some value repeats, `moda` returns the
smallest value attaining the maximum frequency (the documented
`scipy.stats.mode` tie-break), not the first such value in scan order. -/
theorem claim_C6_amended (xs : List ℚ) (h : 1 < maxCount xs) :
    ∃ v, moda xs = some v ∧ xs.count v = maxCount xs ∧
      ∀ w ∈ xs, xs.count w = maxCount xs → v ≤ w := by
  have hne : xs ≠ [] := by
    intro hnil
    rw [hnil] at h
    simp [maxCount] at h
  obtain ⟨m, hsm, hmc, hmin⟩ := st_mode_spec xs hne
  refine ⟨m, ?_, hmc, hmin⟩
  unfold moda
  rw [hsm]
  simp only [hmc]
  rw [if_pos h]

/-- Witness for claim C6 at the tied sample `[3, 3, 1, 1]`. -/
theorem claim_C6_amended_witness :
    1 < maxCount [3, 3, 1, 1] ∧
    ∃ v, moda [3, 3, 1, 1] = some v ∧ ([3, 3, 1, 1] : List ℚ).count v = maxCount [3, 3, 1, 1] ∧
      ∀ w ∈ ([3, 3, 1, 1] : List ℚ), ([3, 3, 1, 1] : List ℚ).count w = maxCount [3, 3, 1, 1] → v ≤ w := by
  have h3 : ([3, 3, 1, 1] : List ℚ).count 3 = 2 := by norm_num [List.count_cons]
  have h1 : ([3, 3, 1, 1] : List ℚ).count 1 = 2 := by norm_num [List.count_cons]
  have hmax : maxCount [3, 3, 1, 1] = 2 := by
    simp [maxCount, h3, h1]
  exact ⟨by omega, claim_C6_amended [3, 3, 1, 1] (by omega)⟩

/-- Counterexample to claim C6 as stated: in `[3, 3, 1, 1]` the values `3`
and `1` tie at the maximum frequency `2`; the first value reaching that
frequency in scan order is `3`, but `moda` returns the smallest tied
value, `1`. -/
theorem claim_C6_cex :
    maxCount [3, 3, 1, 1] = 2 ∧
    ([3, 3, 1, 1] : List ℚ).count 3 = 2 ∧
    ([3, 3, 1, 1] : List ℚ).count 1 = 2 ∧
    specFirstMode [3, 3, 1, 1] = some 3 ∧
    moda [3, 3, 1, 1] = some 1 ∧
    specFirstMode [3, 3, 1, 1] ≠ moda [3, 3, 1, 1] := by
  have h3 : ([3, 3, 1, 1] : List ℚ).count 3 = 2 := by norm_num [List.count_cons]
  have h1 : ([3, 3, 1, 1] : List ℚ).count 1 = 2 := by norm_num [List.count_cons]
  have hmax : maxCount [3, 3, 1, 1] = 2 := by
    simp [maxCount, h3, h1]
  have hfirst : specFirstMode [3, 3, 1, 1] = some 3 := by
    simp [specFirstMode, List.find?, hmax, h3]
  have hcand : modeCandidates [3, 3, 1, 1] = [3, 3, 1, 1] := by
    simp [modeCandidates, List.filter, hmax, h3, h1]
  have hmin : ([3, 3, 1, 1] : List ℚ).min? = some 1 := by
    simp [List.min?, List.foldl, min_def]
  have hmoda : moda [3, 3, 1, 1] = some 1 := by
    unfold moda st_mode
    rw [hcand, hmin]
    simp [h1]
  refine ⟨hmax, h3, h1, hfirst, hmoda, ?_⟩
  rw [hfirst, hmoda]
  simp

/-- Sorting an already sorted sample leaves it unchanged. -/
theorem sortData_of_sorted {xs : List ℚ} (h : xs.Pairwise (fun a b => a ≤ b)) :
    sortData xs = xs := by
  apply List.mergeSort_of_sorted
  exact h.imp fun hab => by simpa using hab

/-- Square-root lower bound from a squared bound. -/
theorem sqrt_lb (a y : ℝ) (ha : 0 ≤ a) (h : a ^ 2 ≤ y) : a ≤ Real.sqrt y := by
  have h2 := Real.sqrt_le_sqrt h
  rwa [Real.sqrt_sq ha] at h2

/-- Lower bound transfer through the real-valued rounding. -/
theorem roundToR_ge (k : ℕ) (x : ℝ) (m : ℤ) (h : (m : ℝ) ≤ x * 10 ^ k) :
    (m : ℚ) / 10 ^ k ≤ roundToR k x := by
  unfold roundToR
  have h1 : m ≤ rdHE (x * 10 ^ k) := rdHE_ge _ m h
  have h2 : (m : ℚ) ≤ (rdHE (x * 10 ^ k) : ℚ) := by exact_mod_cast h1
  have h3 : (0 : ℚ) ≤ 10 ^ k := by positivity
  exact div_le_div_of_nonneg_right h2 h3

/-- The mean of `[1,2,3,4,5]` is `3`. -/
theorem media_12345 : media ([1, 2, 3, 4, 5] : List ℚ) = 3 := by
  norm_num [media, List.sum_cons]

/-- The median of `[1,2,3,4,5]` is `3`. -/
theorem mediana_12345 : mediana ([1, 2, 3, 4, 5] : List ℚ) = 3 := by
  have hs : sortData ([1, 2, 3, 4, 5] : List ℚ) = [1, 2, 3, 4, 5] := by
    apply sortData_of_sorted
    norm_num [List.pairwise_cons]
  unfold mediana
  rw [hs]
  norm_num [List.getD]

/-- `np.std` of `[1,2,3,4,5]` is the square root of two. -/
theorem np_std_12345 : np_std ([1, 2, 3, 4, 5] : List ℚ) 0 = Real.sqrt 2 := by
  unfold np_std
  rw [media_12345]
  norm_num [List.sum_cons]

/-- The rounded standard deviation of `[1,2,3,4,5]` is at least `1.4142`. -/
theorem desvio_12345_ge : (14142 : ℚ) / 10 ^ 4 ≤ desvio_padrao ([1, 2, 3, 4, 5] : List ℚ) := by
  unfold desvio_padrao
  rw [np_std_12345]
  apply roundToR_ge
  have h1 : (14142 / 10 ^ 4 : ℝ) ≤ Real.sqrt 2 := by
    apply sqrt_lb _ _ (by norm_num)
    norm_num
  push_cast
  nlinarith [h1]

/-- The rounded standard deviation of `[1,2,3,4,5]` is non-zero. -/
theorem desvio_12345_ne : desvio_padrao ([1, 2, 3, 4, 5] : List ℚ) ≠ 0 := by
  have h := desvio_12345_ge
  intro h0
  rw [h0] at h
  norm_num at h

/-- Claim C7: `desvio_padrao` is the population standard deviation - square
root of the squared deviations averaged over the full count `N` - rounded
to 4 decimal digits; on `[0, 2]` the `N` convention yields `1` while the
`N - 1` convention would not. -/
theorem claim_C7 (xs : List ℚ) (h : xs ≠ []) :
    desvio_padrao xs =
      roundToR 4 (Real.sqrt ((((xs.map fun x => (x - media xs) ^ 2).sum / (xs.length : ℚ)) : ℚ) : ℝ)) ∧
    desvio_padrao ([0, 2] : List ℚ) = 1 ∧
    roundToR 4 (np_std ([0, 2] : List ℚ) 1) ≠ 1 := by
  have hm02 : media ([0, 2] : List ℚ) = 1 := by norm_num [media, List.sum_cons]
  refine ⟨?_, ?_, ?_⟩
  · unfold desvio_padrao np_std
    norm_num
  · have hstd : np_std ([0, 2] : List ℚ) 0 = 1 := by
      unfold np_std
      rw [hm02]
      norm_num [List.sum_cons]
    unfold desvio_padrao
    rw [hstd, roundToR_eval 4 1 10000 (by norm_num)]
    norm_num
  · have hstd1 : np_std ([0, 2] : List ℚ) 1 = Real.sqrt 2 := by
      unfold np_std
      rw [hm02]
      norm_num [List.sum_cons]
    rw [hstd1]
    have hge : (14142 : ℚ) / 10 ^ 4 ≤ roundToR 4 (Real.sqrt 2) := by
      apply roundToR_ge
      have h1 : (14142 / 10 ^ 4 : ℝ) ≤ Real.sqrt 2 := by
        apply sqrt_lb _ _ (by norm_num)
        norm_num
      push_cast
      nlinarith [h1]
    intro h1
    rw [h1] at hge
    norm_num at hge

/-- Witness for claim C7 at the sample `[0, 2]`. -/
theorem claim_C7_witness :
    ([0, 2] : List ℚ) ≠ [] ∧
    (desvio_padrao ([0, 2] : List ℚ) =
        roundToR 4 (Real.sqrt (((([0, 2] : List ℚ).map fun x => (x - media [0, 2]) ^ 2).sum /
          (([0, 2] : List ℚ).length : ℚ) : ℚ) : ℝ)) ∧
      desvio_padrao ([0, 2] : List ℚ) = 1 ∧
      roundToR 4 (np_std ([0, 2] : List ℚ) 1) ≠ 1) :=
  ⟨by simp, claim_C7 [0, 2] (by simp)⟩

/-- The Pearson coefficient of `[1,2,3,4,5]` is exactly zero. -/
theorem coef_pearson_12345 : coef_pearson ([1, 2, 3, 4, 5] : List ℚ) = PRes.val 0 := by
  unfold coef_pearson npdivQ
  rw [if_neg desvio_12345_ne, media_12345, mediana_12345]
  norm_num

/-- Claim C8: with non-zero rounded standard deviation, `coef_pearson` is
exactly `3 * (mean - median) / stdDev`; on the symmetric sample
`[1,2,3,4,5]` the value rounds to `0` and `resumir` labels it symmetric. -/
theorem claim_C8 (xs : List ℚ) (hs : desvio_padrao xs ≠ 0) :
    coef_pearson xs = PRes.val (3 * (media xs - mediana xs) / desvio_padrao xs) ∧
    ∃ r, resumir ([1, 2, 3, 4, 5] : List ℚ) true = .ok r ∧
      r.pearson = CampoP.classified (PRes.val 0) Assimetria.simetrica := by
  constructor
  · unfold coef_pearson npdivQ
    rw [if_neg hs]
  · refine ⟨_, rfl, ?_⟩
    simp [resumir, coef_pearson_12345, PRes.roundTo, roundToQ, roundHalfEvenQ,
      classificaPearson, PRes.eqQ]

/-- Witness for claim C8 at the sample `[1,2,3,4,5]`. -/
theorem claim_C8_witness :
    desvio_padrao ([1, 2, 3, 4, 5] : List ℚ) ≠ 0 ∧
    (coef_pearson ([1, 2, 3, 4, 5] : List ℚ) =
        PRes.val (3 * (media [1, 2, 3, 4, 5] - mediana [1, 2, 3, 4, 5]) /
          desvio_padrao ([1, 2, 3, 4, 5] : List ℚ)) ∧
      ∃ r, resumir ([1, 2, 3, 4, 5] : List ℚ) true = .ok r ∧
        r.pearson = CampoP.classified (PRes.val 0) Assimetria.simetrica) :=
  ⟨desvio_12345_ne, claim_C8 [1, 2, 3, 4, 5] desvio_12345_ne⟩

/-- On a non-empty sample `resumir` with `analise` true returns the record
whose pearson and kurtosis entries carry the rounded values together with
their classification labels. -/
theorem resumir_fields (a : ℚ) (l : List ℚ) :
    ∃ r, resumir (a :: l) true = .ok r ∧
      r.pearson = CampoP.classified ((coef_pearson (a :: l)).roundTo 3)
        (classificaPearson ((coef_pearson (a :: l)).roundTo 3)) ∧
      r.curtose = CampoC.classified (curtose (a :: l)) (classificaCurtose (curtose (a :: l))) :=
  ⟨_, rfl, rfl, rfl⟩

/-- Claim C3: on a non-empty sample with non-zero rounded standard
deviation, `resumir` with `analise` true labels the 3-decimal rounded
Pearson value `v` as symmetric exactly when `v = 0`, as right/positive
asymmetry when `v > 0` and as left/negative asymmetry when `v < 0`, with
intensity moderate exactly when `0.15 < |v| < 1` and strong otherwise. -/
theorem claim_C3 (xs : List ℚ) (h : xs ≠ []) (hs : desvio_padrao xs ≠ 0) :
    ∃ r, resumir xs true = .ok r ∧
      ∀ v, v = roundToQ 3 (3 * (media xs - mediana xs) / desvio_padrao xs) →
        (v = 0 → r.pearson = CampoP.classified (PRes.val v) Assimetria.simetrica) ∧
        (0 < v → r.pearson = CampoP.classified (PRes.val v)
          (Assimetria.direita (if 15/100 < |v| ∧ |v| < 1 then Intensidade.moderada
            else Intensidade.forte))) ∧
        (v < 0 → r.pearson = CampoP.classified (PRes.val v)
          (Assimetria.esquerda (if 15/100 < |v| ∧ |v| < 1 then Intensidade.moderada
            else Intensidade.forte))) := by
  obtain ⟨a, l, rfl⟩ := List.exists_cons_of_ne_nil h
  obtain ⟨r, hr, hrp, _⟩ := resumir_fields a l
  refine ⟨r, hr, ?_⟩
  intro v hv
  have hpv : (coef_pearson (a :: l)).roundTo 3 = PRes.val v := by
    unfold coef_pearson npdivQ
    rw [if_neg hs]
    simp [PRes.roundTo, hv]
  rw [hpv] at hrp
  refine ⟨?_, ?_, ?_⟩ <;> intro hvc <;> rw [hrp]
  · simp [classificaPearson, PRes.eqQ, hvc]
  · have hne : ¬(v = 0) := ne_of_gt hvc
    simp [classificaPearson, PRes.eqQ, PRes.gtQ, PRes.absP, qltPRes, PRes.ltQ, hne, hvc]
  · have hne : ¬(v = 0) := ne_of_lt hvc
    have hng : ¬(0 < v) := not_lt.mpr (le_of_lt hvc)
    simp [classificaPearson, PRes.eqQ, PRes.gtQ, PRes.absP, qltPRes, PRes.ltQ, hne, hng]

/-- The mean of `[0,0,1,1]` is `1/2`. -/
theorem media_0011 : media ([0, 0, 1, 1] : List ℚ) = 1/2 := by
  norm_num [media, List.sum_cons]

/-- The rounded standard deviation of `[0,0,1,1]` is exactly `1/2`. -/
theorem desvio_0011 : desvio_padrao ([0, 0, 1, 1] : List ℚ) = 1/2 := by
  have hstd : np_std ([0, 0, 1, 1] : List ℚ) 0 = 1/2 := by
    unfold np_std
    rw [media_0011]
    have harg : (((([0, 0, 1, 1] : List ℚ).map fun x => (x - 1/2) ^ 2).sum /
        ((([0, 0, 1, 1] : List ℚ).length : ℚ) - ((0 : ℕ) : ℚ))) : ℚ) = 1/4 := by
      norm_num [List.sum_cons]
    rw [harg]
    rw [show ((1/4 : ℚ) : ℝ) = (1/2 : ℝ) ^ 2 by norm_num]
    exact Real.sqrt_sq (by norm_num)
  unfold desvio_padrao
  rw [hstd, roundToR_eval 4 (1/2) 5000 (by norm_num)]
  norm_num

/-- Witness for claim C3 at the sample `[0,0,1,1]` (standard deviation
`1/2`). -/
theorem claim_C3_witness :
    (([0, 0, 1, 1] : List ℚ) ≠ [] ∧ desvio_padrao ([0, 0, 1, 1] : List ℚ) ≠ 0) ∧
    (∃ r, resumir ([0, 0, 1, 1] : List ℚ) true = .ok r ∧
      ∀ v, v = roundToQ 3 (3 * (media [0, 0, 1, 1] - mediana [0, 0, 1, 1]) /
          desvio_padrao ([0, 0, 1, 1] : List ℚ)) →
        (v = 0 → r.pearson = CampoP.classified (PRes.val v) Assimetria.simetrica) ∧
        (0 < v → r.pearson = CampoP.classified (PRes.val v)
          (Assimetria.direita (if 15/100 < |v| ∧ |v| < 1 then Intensidade.moderada
            else Intensidade.forte))) ∧
        (v < 0 → r.pearson = CampoP.classified (PRes.val v)
          (Assimetria.esquerda (if 15/100 < |v| ∧ |v| < 1 then Intensidade.moderada
            else Intensidade.forte)))) :=
  ⟨⟨by simp, by rw [desvio_0011]; norm_num⟩,
    claim_C3 [0, 0, 1, 1] (by simp) (by rw [desvio_0011]; norm_num)⟩

/-- The second central moment is non-negative. -/
theorem centralMoment_two_nonneg (xs : List ℚ) : 0 ≤ centralMoment xs 2 := by
  unfold centralMoment
  apply div_nonneg
  · apply List.sum_nonneg
    intro x hx
    rw [List.mem_map] at hx
    obtain ⟨y, _, rfl⟩ := hx
    positivity
  · positivity

/-- Claim C4: on a non-empty, non-constant sample, `curtose` is the
non-excess fourth standardized moment `m4 / sigma^4` (no subtraction of 3,
`sigma` the unrounded population standard deviation) rounded to 3 decimal
digits, and `resumir` with `analise` true labels the rounded value `k`
mesokurtic exactly when `k = 0.263`, platykurtic exactly when `k > 0.263`
and leptokurtic exactly when `k < 0.263`. -/
theorem claim_C4 (xs : List ℚ) (h : xs ≠ []) (h2 : centralMoment xs 2 ≠ 0) :
    ∃ q : ℚ, (q : ℝ) = (centralMoment xs 4 : ℝ) /
        (Real.sqrt ((centralMoment xs 2 : ℚ) : ℝ)) ^ 4 ∧
      curtose xs = PRes.val (roundToQ 3 q) ∧
      ∃ r, resumir xs true = .ok r ∧
        ∀ k, k = roundToQ 3 q →
          (k = 263/1000 → r.curtose = CampoC.classified (PRes.val k) CurtoseClasse.mesocurtica) ∧
          (263/1000 < k → r.curtose = CampoC.classified (PRes.val k) CurtoseClasse.platicurtica) ∧
          (k < 263/1000 → r.curtose = CampoC.classified (PRes.val k) CurtoseClasse.leptocurtica) := by
  have hsq : (Real.sqrt ((centralMoment xs 2 : ℚ) : ℝ)) ^ 4 =
      ((centralMoment xs 2 : ℚ) : ℝ) ^ 2 := by
    rw [show (4 : ℕ) = 2 * 2 from rfl, pow_mul]
    rw [Real.sq_sqrt (by exact_mod_cast centralMoment_two_nonneg xs)]
  have hval : curtose xs = PRes.val (roundToQ 3 (centralMoment xs 4 / (centralMoment xs 2) ^ 2)) := by
    unfold curtose st_kurtosis npdivQ
    rw [if_neg (pow_ne_zero 2 h2)]
    simp [PRes.roundTo]
  refine ⟨centralMoment xs 4 / (centralMoment xs 2) ^ 2, ?_, hval, ?_⟩
  · rw [hsq]
    push_cast
    ring
  · obtain ⟨a, l, rfl⟩ := List.exists_cons_of_ne_nil h
    obtain ⟨r, hr, _, hrc⟩ := resumir_fields a l
    refine ⟨r, hr, ?_⟩
    intro k hk
    have hck : curtose (a :: l) = PRes.val k := by rw [hval, hk]
    rw [hck] at hrc
    refine ⟨?_, ?_, ?_⟩ <;> intro hkc <;> rw [hrc]
    · simp [classificaCurtose, PRes.eqQ, hkc]
    · have hne : ¬(k = 263/1000) := ne_of_gt hkc
      simp [classificaCurtose, PRes.eqQ, PRes.gtQ, hne, hkc]
    · have hne : ¬(k = 263/1000) := ne_of_lt hkc
      have hng : ¬(263/1000 < k) := not_lt.mpr (le_of_lt hkc)
      simp [classificaCurtose, PRes.eqQ, PRes.gtQ, hne, hng]

/-- Witness for claim C4 at the sample `[0,0,1,1]` (second central moment
`1/4`). -/
theorem claim_C4_witness :
    (([0, 0, 1, 1] : List ℚ) ≠ [] ∧ centralMoment [0, 0, 1, 1] 2 ≠ 0) ∧
    (∃ q : ℚ, (q : ℝ) = (centralMoment [0, 0, 1, 1] 4 : ℝ) /
        (Real.sqrt ((centralMoment [0, 0, 1, 1] 2 : ℚ) : ℝ)) ^ 4 ∧
      curtose [0, 0, 1, 1] = PRes.val (roundToQ 3 q) ∧
      ∃ r, resumir ([0, 0, 1, 1] : List ℚ) true = .ok r ∧
        ∀ k, k = roundToQ 3 q →
          (k = 263/1000 → r.curtose = CampoC.classified (PRes.val k) CurtoseClasse.mesocurtica) ∧
          (263/1000 < k → r.curtose = CampoC.classified (PRes.val k) CurtoseClasse.platicurtica) ∧
          (k < 263/1000 → r.curtose = CampoC.classified (PRes.val k) CurtoseClasse.leptocurtica)) :=
  ⟨⟨by simp, by norm_num [centralMoment, media_0011, List.sum_cons]⟩,
    claim_C4 [0, 0, 1, 1] (by simp) (by norm_num [centralMoment, media_0011, List.sum_cons])⟩
